import Mathlib

/-!
# Verification of the MixBuddy analysis core (`src/analyze_songs.py`)

Shallow embedding of the analytical pipeline: key estimation from a chroma
vector (`estimate_key`), Camelot mapping (`key_to_camelot`), mood
classification (`detect_mood`), the per-track record assembly
(`analyze_song` / `analyze_folder`), and the spec-described recommendation
engine (not present in the source tree; modelled from the spec).

Python floats are idealised as exact arithmetic: the fixed constant tables
become rational constants, scalar features are rationals, and the one real
irrational operation (`np.linalg.norm`, a square root) is modelled with
`Real.sqrt` over `ℝ`.
-/

set_option maxRecDepth 400000
set_option maxHeartbeats 4000000

namespace MixBuddy

/-- A sharpened pitch-class name: `sharp "C" = "C#"`. -/
def sharp (note : String) : String := note ++ "#"

/-- `KEY_NAMES` (line 13 of `analyze_songs.py`): the 12 pitch-class names,
index 0 = C through index 11 = B. -/
def KEY_NAMES : Fin 12 → String :=
  !["C", sharp "C", "D", sharp "D", "E", "F",
    sharp "F", "G", sharp "G", "A", sharp "A", "B"]

/-- `MAJOR_PROFILE` (lines 45-48): the Krumhansl-Schmuckler major key profile,
kept as exact rationals (6.35 = 635/100, and so on). -/
def MAJOR_PROFILE : Fin 12 → ℚ :=
  ![635/100, 223/100, 348/100, 233/100, 438/100, 409/100,
    252/100, 519/100, 239/100, 366/100, 229/100, 288/100]

/-- `MINOR_PROFILE` (lines 49-52): the Krumhansl-Schmuckler minor key profile. -/
def MINOR_PROFILE : Fin 12 → ℚ :=
  ![633/100, 268/100, 352/100, 538/100, 260/100, 353/100,
    254/100, 475/100, 398/100, 269/100, 334/100, 317/100]

/-- `np.roll(P, idx)` for a 12-vector: entry `j` of the rolled vector is
`P[(j - idx) mod 12]`; the rational table entries are cast into the ambient
scalar field `α`. -/
def rollProfile {α : Type} [LinearOrderedField α] (P : Fin 12 → ℚ) (idx : Fin 12) :
    Fin 12 → α :=
  fun j => ((P (j - idx) : ℚ) : α)

/-- `np.dot` of two 12-vectors. -/
def dot12 {α : Type} [LinearOrderedField α] (a b : Fin 12 → α) : α :=
  ∑ j, a j * b j

/-- `score > best_score`, where `none` plays the role of the initial
`float("-inf")` (line 68): every real score strictly exceeds it. -/
def optLt {α : Type} [LinearOrderedField α] (best : Option α) (s : α) : Prop :=
  match best with
  | none => True
  | some b => b < s

instance {α : Type} [LinearOrderedField α] :
    ∀ (best : Option α) (s : α), Decidable (optLt best s)
  | none, _ => isTrue trivial
  | some b, s => inferInstanceAs (Decidable (b < s))

/-- One iteration of the candidate loop of `estimate_key` (lines 71-80): at
pitch-class index `i`, first the major candidate is scored and compared
against the running best, then the minor candidate. -/
def keyStep {α : Type} [LinearOrderedField α] (v : Fin 12 → α)
    (st : Option α × String) (i : Fin 12) : Option α × String :=
  let major_score := dot12 v (rollProfile MAJOR_PROFILE i)
  let st1 :=
    if optLt st.1 major_score then (some major_score, KEY_NAMES i ++ " major") else st
  let minor_score := dot12 v (rollProfile MINOR_PROFILE i)
  if optLt st1.1 minor_score then (some minor_score, KEY_NAMES i ++ " minor") else st1

/-- The full selection loop of `estimate_key` (lines 68-82), run on an
arbitrary 12-vector `v` standing for `chroma_norm`: best score starts at
`-inf` (`none`), best key starts at `"Unknown"`. -/
def keyBest {α : Type} [LinearOrderedField α] (v : Fin 12 → α) : String :=
  ((List.finRange 12).foldl (keyStep v) (none, "Unknown")).2

/-- `chroma.mean(axis=1)` (line 65): the time average of a 12 × T chroma
matrix, one mean per pitch class. -/
noncomputable def chromaMean (T : ℕ) (chroma : Fin 12 → Fin T → ℝ) : Fin 12 → ℝ :=
  fun i => (∑ t, chroma i t) / T

/-- `np.linalg.norm` of a 12-vector: the euclidean (L2) norm. -/
noncomputable def l2norm (v : Fin 12 → ℝ) : ℝ :=
  Real.sqrt (∑ j, v j ^ 2)

/-- Line 66: `chroma_norm = chroma_mean / (np.linalg.norm(chroma_mean) + 1e-9)`.
The `1e-9` epsilon is added to the denominator unconditionally. -/
noncomputable def chroma_norm (v : Fin 12 → ℝ) : Fin 12 → ℝ :=
  fun i => v i / (l2norm v + 1 / 10 ^ 9)

/-- `estimate_key` (lines 64-82): time-average the chroma matrix, normalise,
then pick the best of the 24 rotated-profile correlation candidates. -/
noncomputable def estimate_key (T : ℕ) (chroma : Fin 12 → Fin T → ℝ) : String :=
  keyBest (chroma_norm (chromaMean T chroma))

/-- The 24 correlation scores of `estimate_key` (lines 72 and 77), indexed by
pitch class and mode (`false` = major, `true` = minor), evaluated against the
normalised mean chroma vector exactly as in the source. -/
noncomputable def keyScore (T : ℕ) (chroma : Fin 12 → Fin T → ℝ)
    (i : Fin 12) (m : Bool) : ℝ :=
  dot12 (chroma_norm (chromaMean T chroma))
    (rollProfile (cond m MINOR_PROFILE MAJOR_PROFILE) i)

theorem optLt_map {α β : Type} [LinearOrderedField α] [LinearOrderedField β]
    {φ : α → β} (hφ : StrictMono φ) (b : Option α) (s : α) :
    optLt (b.map φ) (φ s) = optLt b s := by
  cases b <;> simp [optLt, hφ.lt_iff_lt]

theorem keyStep_map {α β : Type} [LinearOrderedField α] [LinearOrderedField β]
    {φ : α → β} (hφ : StrictMono φ) {v : Fin 12 → α} {w : Fin 12 → β}
    (hsc : ∀ (P : Fin 12 → ℚ) (i : Fin 12),
      dot12 w (rollProfile P i) = φ (dot12 v (rollProfile P i)))
    (st : Option α × String) (i : Fin 12) :
    keyStep w (st.1.map φ, st.2) i =
      ((keyStep v st i).1.map φ, (keyStep v st i).2) := by
  obtain ⟨b, k⟩ := st
  have hopt : ∀ (o : Option α) (s : α), optLt (o.map φ) (φ s) ↔ optLt o s := by
    intro o s
    cases o <;> simp [optLt, hφ.lt_iff_lt]
  have hopt2 : ∀ (x s : α), optLt (some (φ x)) (φ s) ↔ optLt (some x) s :=
    fun x s => hopt (some x) s
  simp only [keyStep, hsc]
  by_cases h1 : optLt b (dot12 v (rollProfile MAJOR_PROFILE i))
  · rw [if_pos h1, if_pos ((hopt b _).mpr h1)]
    by_cases h2 : optLt (some (dot12 v (rollProfile MAJOR_PROFILE i)))
        (dot12 v (rollProfile MINOR_PROFILE i))
    · rw [if_pos h2, if_pos ((hopt2 _ _).mpr h2)]
      rfl
    · rw [if_neg h2, if_neg (fun hc => h2 ((hopt2 _ _).mp hc))]
      rfl
  · rw [if_neg h1, if_neg (fun hc => h1 ((hopt b _).mp hc))]
    by_cases h2 : optLt b (dot12 v (rollProfile MINOR_PROFILE i))
    · rw [if_pos h2, if_pos ((hopt b _).mpr h2)]
      rfl
    · rw [if_neg h2, if_neg (fun hc => h2 ((hopt b _).mp hc))]

theorem keyFold_map {α β : Type} [LinearOrderedField α] [LinearOrderedField β]
    {φ : α → β} (hφ : StrictMono φ) {v : Fin 12 → α} {w : Fin 12 → β}
    (hsc : ∀ (P : Fin 12 → ℚ) (i : Fin 12),
      dot12 w (rollProfile P i) = φ (dot12 v (rollProfile P i)))
    (l : List (Fin 12)) :
    ∀ st : Option α × String,
      l.foldl (keyStep w) (st.1.map φ, st.2) =
        ((l.foldl (keyStep v) st).1.map φ, (l.foldl (keyStep v) st).2) := by
  induction l with
  | nil => intro st; rfl
  | cons i l ih =>
      intro st
      rw [List.foldl_cons, List.foldl_cons, keyStep_map hφ hsc st i]
      exact ih (keyStep v st i)

theorem keyBest_map {α β : Type} [LinearOrderedField α] [LinearOrderedField β]
    {φ : α → β} (hφ : StrictMono φ) {v : Fin 12 → α} {w : Fin 12 → β}
    (hsc : ∀ (P : Fin 12 → ℚ) (i : Fin 12),
      dot12 w (rollProfile P i) = φ (dot12 v (rollProfile P i))) :
    keyBest w = keyBest v := by
  have h := keyFold_map hφ hsc (List.finRange 12) (none, "Unknown")
  simpa [keyBest] using congrArg Prod.snd h

theorem dot12_div (v : Fin 12 → ℝ) (d : ℝ) (b : Fin 12 → ℝ) :
    dot12 (fun i => v i / d) b = dot12 v b / d := by
  simp [dot12, Finset.sum_div, div_mul_eq_mul_div]

theorem dot12_cast (u : Fin 12 → ℚ) (P : Fin 12 → ℚ) (j : Fin 12) :
    dot12 (fun i => ((u i : ℚ) : ℝ)) (rollProfile P j) =
      ((dot12 u (rollProfile P j) : ℚ) : ℝ) := by
  simp only [dot12, rollProfile, Rat.cast_id]
  push_cast
  rfl

theorem denom_pos (v : Fin 12 → ℝ) : 0 < l2norm v + 1 / 10 ^ 9 := by
  have h := Real.sqrt_nonneg (∑ j, v j ^ 2)
  have : (0 : ℝ) < 1 / 10 ^ 9 := by norm_num
  unfold l2norm
  linarith

/-- The selection made by `estimate_key` is unchanged by the positive
normalisation denominator: it agrees with the plain rational selection loop
run on any rational vector whose cast is the time-averaged chroma. -/
theorem estimate_key_eq_keyBest (T : ℕ) (chroma : Fin 12 → Fin T → ℝ)
    (u : Fin 12 → ℚ) (h : ∀ i, chromaMean T chroma i = (u i : ℝ)) :
    estimate_key T chroma = keyBest u := by
  have hm : chromaMean T chroma = fun i => ((u i : ℚ) : ℝ) := funext h
  have hd := denom_pos (chromaMean T chroma)
  have h1 : estimate_key T chroma = keyBest (chromaMean T chroma) := by
    unfold estimate_key
    refine keyBest_map (StrictMono.div_const strictMono_id hd) ?_
    intro P i
    exact dot12_div (chromaMean T chroma) _ (rollProfile P i)
  rw [h1, hm]
  refine keyBest_map Rat.cast_strictMono ?_
  intro P i
  exact dot12_cast u P i

/-- Likewise each correlation score is the rational score divided by the
positive normalisation denominator. -/
theorem keyScore_eq (T : ℕ) (chroma : Fin 12 → Fin T → ℝ)
    (u : Fin 12 → ℚ) (h : ∀ i, chromaMean T chroma i = (u i : ℝ))
    (i : Fin 12) (m : Bool) :
    keyScore T chroma i m =
      ((dot12 u (rollProfile (cond m MINOR_PROFILE MAJOR_PROFILE) i) : ℚ) : ℝ) /
        (l2norm (chromaMean T chroma) + 1 / 10 ^ 9) := by
  have hm : chromaMean T chroma = fun i => ((u i : ℚ) : ℝ) := funext h
  unfold keyScore chroma_norm
  rw [dot12_div, hm, dot12_cast]

/-- `CAM_MAJOR` (lines 15-28): the major-tonic Camelot table, as the
association list underlying the Python dict. -/
def CAM_MAJOR : List (String × String) :=
  [("B", "1B"), ("F#", "2B"), ("C#", "3B"), ("G#", "4B"), ("D#", "5B"),
   ("A#", "6B"), ("F", "7B"), ("C", "8B"), ("G", "9B"), ("D", "10B"),
   ("A", "11B"), ("E", "12B")]

/-- `CAM_MINOR` (lines 30-43): the minor-tonic Camelot table. -/
def CAM_MINOR : List (String × String) :=
  [("G#", "1A"), ("D#", "2A"), ("A#", "3A"), ("F", "4A"), ("C", "5A"),
   ("G", "6A"), ("D", "7A"), ("A", "8A"), ("E", "9A"), ("B", "10A"),
   ("F#", "11A"), ("C#", "12A")]

/-- `d.get(note, "")`: dictionary lookup with default `""`. -/
def dictGet (d : List (String × String)) (note : String) : String :=
  (d.lookup note).getD ""

/-- `key.split(" ", 1)` (line 87): split at the first space only.  `none`
models the `ValueError` raised by unpacking when the string has no space. -/
def splitFirstSpace : List Char → Option (List Char × List Char)
  | [] => none
  | c :: cs =>
      if c = ' ' then some ([], cs)
      else (splitFirstSpace cs).map (fun p => (c :: p.1, p.2))

/-- `key_to_camelot` (lines 85-95). -/
def key_to_camelot (key : String) : String :=
  match splitFirstSpace key.data with
  | none => ""
  | some (note, mode) =>
      if String.mk mode = "major" then dictGet CAM_MAJOR (String.mk note)
      else if String.mk mode = "minor" then dictGet CAM_MINOR (String.mk note)
      else ""

/-- Python's substring containment `needle in hay` on character lists. -/
def hasSubstr (needle : List Char) : List Char → Bool
  | [] => needle.isEmpty
  | c :: t => needle.isPrefixOf (c :: t) || hasSubstr needle t

/-- `str.lower()`, characterwise. -/
def strLower (s : String) : String :=
  String.mk (s.toList.map Char.toLower)

/-- `"major" in key.lower()` (line 115). -/
def is_major_of (key : String) : Bool :=
  hasSubstr "major".toList (strLower key).toList

/-- `detect_mood` (lines 98-165).  The two librosa feature extractions
(mean RMS `energy`, lines 104-105, and mean spectral centroid `brightness`,
lines 108-109) belong to the excluded signal-processing front end, so those
scalars are taken as inputs; the decision cascade is transcribed exactly,
with the decimal thresholds as exact rationals. -/
def detect_mood (energy brightness : ℚ) (tempo : ℚ) (key : String) : String :=
  let brightness_normalized := min (brightness / 3500) 1
  let is_major := is_major_of key
  if tempo > 145 then "Energetic"
  else if tempo > 125 ∧ energy > 12/100 then
    (if is_major = true ∨ brightness_normalized > 5/10 then "Energetic" else "Intense")
  else if tempo ≥ 110 then
    (if brightness_normalized > 55/100 ∧ energy > 8/100 then "Uplifting"
     else if brightness_normalized < 3/10 ∧ energy < 11/100 then "Dark"
     else if energy > 13/100 ∧ is_major = false then "Intense"
     else "Energetic")
  else if tempo ≥ 95 then
    (if energy < 8/100 then "Chill"
     else if is_major = true ∧ brightness_normalized > 5/10 then "Uplifting"
     else if brightness_normalized < 3/10 then "Dark"
     else "Chill")
  else if energy < 7/100 then "Chill"
  else if is_major = false ∧ brightness_normalized < 4/10 then "Melancholic"
  else if is_major = true then "Uplifting"
  else if energy > 1/10 ∧ brightness_normalized > 4/10 then "Uplifting"
  else "Chill"

/-- The four rules of the medium-high tempo band of `detect_mood`
(lines 131-142), on the already-normalised brightness. -/
def bandRules (energy brightness_normalized : ℚ) (is_major : Bool) : String :=
  if brightness_normalized > 55/100 ∧ energy > 8/100 then "Uplifting"
  else if brightness_normalized < 3/10 ∧ energy < 11/100 then "Dark"
  else if energy > 13/100 ∧ is_major = false then "Intense"
  else "Energetic"

/-- One output record of the analysis pipeline: the dict built at lines
187-193 (successful analysis, `error := none`) or in the `except` branch at
lines 201-208 (failed track). -/
structure SongRow where
  filename : String
  tempo_bpm : String
  camelot_key : String
  key : String
  mood : String
  error : Option String
deriving DecidableEq

/-- `os.path.basename`: the part of the path after the last `/`. -/
def basename (path : String) : String :=
  String.mk (path.toList.foldl (fun acc c => if c = '/' then [] else acc ++ [c]) [])

/-- Python's `round` to the nearest integer, ties to even. -/
def pyRound (q : ℚ) : ℤ :=
  if 2 * (q - ⌊q⌋) = 1 then (if 2 ∣ ⌊q⌋ then ⌊q⌋ else ⌊q⌋ + 1) else round q

/-- `analyze_song` (lines 168-193).  Waveform loading and the librosa
feature extraction (lines 170-182) are external collaborators, so the tempo,
chroma matrix, energy and brightness are parameters; the key estimation,
Camelot mapping, mood detection and record assembly are as in the source. -/
noncomputable def analyze_song (path : String) (T : ℕ)
    (chroma : Fin 12 → Fin T → ℝ) (tempo_value energy brightness : ℚ) : SongRow :=
  let key := estimate_key T chroma
  { filename := basename path
    tempo_bpm := toString (pyRound tempo_value)
    camelot_key := key_to_camelot key
    key := key
    mood := detect_mood energy brightness tempo_value key
    error := none }

/-- The record built by the `except` branch of `analyze_folder` (lines
201-208): filename and error message only, all analytic fields empty. -/
def errorRow (path msg : String) : SongRow :=
  { filename := basename path
    tempo_bpm := ""
    camelot_key := ""
    key := ""
    mood := ""
    error := some msg }

/-- `analyze_folder` (lines 196-208).  `analyze` is the per-track analysis
(`analyze_song`, whose librosa calls may raise, modelled by `Except.error`);
a failure is converted to an error record and iteration continues with the
remaining songs. -/
def analyze_folder (analyze : String → Except String SongRow)
    (songs : List String) : List SongRow :=
  songs.map (fun path =>
    match analyze path with
    | Except.ok row => row
    | Except.error exc => errorRow path exc)

/-- The 24 key labels the loop of `estimate_key` can assign. -/
def validKeyLabels : List String :=
  ["C major", "C minor", "C# major", "C# minor", "D major", "D minor",
   "D# major", "D# minor", "E major", "E minor", "F major", "F minor",
   "F# major", "F# minor", "G major", "G minor", "G# major", "G# minor",
   "A major", "A minor", "A# major", "A# minor", "B major", "B minor"]

theorem keyStep_mem {α : Type} [LinearOrderedField α] (v : Fin 12 → α)
    (st : Option α × String) (i : Fin 12) (h : st.2 ∈ validKeyLabels) :
    (keyStep v st i).2 ∈ validKeyLabels := by
  have hmaj : ∀ j : Fin 12, KEY_NAMES j ++ " major" ∈ validKeyLabels := by decide
  have hmin : ∀ j : Fin 12, KEY_NAMES j ++ " minor" ∈ validKeyLabels := by decide
  simp only [keyStep]
  by_cases h1 : optLt st.1 (dot12 v (rollProfile MAJOR_PROFILE i))
  · rw [if_pos h1]
    by_cases h2 : optLt (some (dot12 v (rollProfile MAJOR_PROFILE i)))
        (dot12 v (rollProfile MINOR_PROFILE i))
    · rw [if_pos h2]; exact hmin i
    · rw [if_neg h2]; exact hmaj i
  · rw [if_neg h1]
    by_cases h2 : optLt st.1 (dot12 v (rollProfile MINOR_PROFILE i))
    · rw [if_pos h2]; exact hmin i
    · rw [if_neg h2]; exact h

theorem keyStep_none_mem {α : Type} [LinearOrderedField α] (v : Fin 12 → α)
    (k : String) (i : Fin 12) :
    (keyStep v (none, k) i).2 ∈ validKeyLabels := by
  have hmaj : ∀ j : Fin 12, KEY_NAMES j ++ " major" ∈ validKeyLabels := by decide
  have hmin : ∀ j : Fin 12, KEY_NAMES j ++ " minor" ∈ validKeyLabels := by decide
  simp only [keyStep]
  have h0 : optLt (none : Option α) (dot12 v (rollProfile MAJOR_PROFILE i)) := trivial
  rw [if_pos h0]
  by_cases h2 : optLt (some (dot12 v (rollProfile MAJOR_PROFILE i)))
      (dot12 v (rollProfile MINOR_PROFILE i))
  · rw [if_pos h2]; exact hmin i
  · rw [if_neg h2]; exact hmaj i

theorem keyFold_mem {α : Type} [LinearOrderedField α] (v : Fin 12 → α) :
    ∀ (l : List (Fin 12)) (st : Option α × String), st.2 ∈ validKeyLabels →
      (l.foldl (keyStep v) st).2 ∈ validKeyLabels := by
  intro l
  induction l with
  | nil => intro st h; exact h
  | cons i l ih =>
      intro st h
      rw [List.foldl_cons]
      exact ih (keyStep v st i) (keyStep_mem v st i h)

/-- With exact arithmetic every score beats the initial `-inf`, so the loop
of `estimate_key` always commits to one of the 24 real key labels. -/
theorem estimate_key_mem (T : ℕ) (chroma : Fin 12 → Fin T → ℝ) :
    estimate_key T chroma ∈ validKeyLabels := by
  unfold estimate_key keyBest
  have hl : List.finRange 12 =
      (0 : Fin 12) :: [1, 2, 3, 4, 5, 6, 7, 8, 9, 10, 11] := by decide
  rw [hl, List.foldl_cons]
  exact keyFold_mem _ _ _ (keyStep_none_mem _ "Unknown" 0)

/-- Modelled from the spec: a `SongFingerprint` (§3) as the
RecommendationEngine consumes it — tempo in BPM (0 = undetermined), Camelot
code (empty = unknown key), key label, mood, optional analysis error.  The
RecommendationEngine itself is absent from the source tree. -/
structure SongFingerprint where
  tempo_bpm : ℚ
  camelot_key : String
  key : String
  mood : String
  error : Option String
deriving DecidableEq

/-- Modelled from the spec: a `Recommendation` row (§3), derived per query. -/
structure Recommendation where
  filename : String
  tempo_bpm : ℚ
  camelot_key : String
  key : String
  mood : String
  score : ℚ
  tempoDistance : ℚ
  keyDistance : ℚ
deriving DecidableEq

/-- Modelled from the spec (§4.4 step 2a): the minimum of the direct
(`|t - t2|`), half-time (`|t - 2·t2|`) and double-time (`|t - t2/2|`) tempo
deltas. -/
def tempoDistance (t t2 : ℚ) : ℚ :=
  min |t - t2| (min |t - 2 * t2| |t - t2 / 2|)

/-- Modelled from the spec (§4.4 step 2c): parse a Camelot code into wheel
number (1..12) and letter (A/B); `none` when malformed. -/
def parseCamelot (s : String) : Option (ℕ × Char) :=
  match s.toList.getLast? with
  | none => none
  | some letter =>
      if letter = 'A' ∨ letter = 'B' then
        let digits := s.toList.dropLast
        if digits ≠ [] ∧ digits.all Char.isDigit then
          let n := digits.foldl (fun acc c => 10 * acc + (c.toNat - 48)) 0
          if 1 ≤ n ∧ n ≤ 12 then some (n, letter) else none
        else none
      else none

/-- Modelled from the spec (§4.4 step 2c): Camelot-wheel key distance —
identical → 0; same number, other letter → 1; same letter at circular
distance 1 → 2, at 2 → 4, beyond → 6 + distance; different letter and
number → 8; malformed → 999. -/
def camelotDistance (a b : String) : ℚ :=
  match parseCamelot a, parseCamelot b with
  | some (n1, l1), some (n2, l2) =>
      if n1 = n2 ∧ l1 = l2 then 0
      else if n1 = n2 then 1
      else if l1 = l2 then
        let d : ℕ := min ((n1 : ℤ) - n2).natAbs (12 - ((n1 : ℤ) - n2).natAbs)
        if d = 1 then 2 else if d = 2 then 4 else (6 + d : ℚ)
      else 8
  | _, _ => 999

/-- Modelled from the spec (§4.4 steps 1-2, §7c): a fingerprint takes part
in scoring only with a positive tempo, a non-empty Camelot code and no
analysis error. -/
def usable (fp : SongFingerprint) : Bool :=
  decide (0 < fp.tempo_bpm) && decide (fp.camelot_key ≠ "") && decide (fp.error = none)

/-- Stable insertion of a recommendation into a list sorted ascending by
score: earlier elements with an equal score stay in front. -/
def insertSorted (r : Recommendation) : List Recommendation → List Recommendation
  | [] => [r]
  | x :: t => if x.score ≤ r.score then x :: insertSorted r t else r :: x :: t

/-- Stable insertion sort ascending by score (ties keep catalog order). -/
def sortByScore : List Recommendation → List Recommendation
  | [] => []
  | x :: t => insertSorted x (sortByScore t)

/-- Modelled from the spec (§4.4): `recommend`.  Absent query or unusable
query fingerprint → empty list; otherwise every other usable catalog entry
within 12 BPM best-case tempo distance is scored
`keyDistance * 3 + tempoDistance * 0.2`, sorted ascending by score (stable
sort keeps catalog order on ties) and truncated to 10. -/
def recommend (query : String) (catalog : List (String × SongFingerprint)) :
    List Recommendation :=
  match catalog.lookup query with
  | none => []
  | some qf =>
      if usable qf then
        let scored := catalog.filterMap (fun c =>
          if c.1 = query ∨ usable c.2 = false then none
          else
            let td := tempoDistance qf.tempo_bpm c.2.tempo_bpm
            if 12 < td then none
            else
              let kd := camelotDistance qf.camelot_key c.2.camelot_key
              some { filename := c.1
                     tempo_bpm := c.2.tempo_bpm
                     camelot_key := c.2.camelot_key
                     key := c.2.key
                     mood := c.2.mood
                     score := kd * 3 + td * (2/10)
                     tempoDistance := td
                     keyDistance := kd })
        (sortByScore scored).take 10
      else []

/-- A three-track demonstration catalog: a 120 BPM query track, a usable
121 BPM candidate, and a 135 BPM candidate whose best-case tempo distance
from the query is 15 BPM. -/
def demoCatalog : List (String × SongFingerprint) :=
  [("q.mp3", ⟨120, "8A", "A minor", "Energetic", none⟩),
   ("near.mp3", ⟨121, "8A", "A minor", "Energetic", none⟩),
   ("fast.mp3", ⟨135, "8A", "A minor", "Energetic", none⟩)]

theorem keyBest_minor_rot : ∀ k : Fin 12,
    keyBest (rollProfile MINOR_PROFILE k : Fin 12 → ℚ) = KEY_NAMES k ++ " minor" := by
  with_unfolding_all decide

theorem keyBest_major_rot : ∀ k : Fin 12,
    keyBest (rollProfile MAJOR_PROFILE k : Fin 12 → ℚ) = KEY_NAMES (k + 9) ++ " minor" := by
  with_unfolding_all decide

theorem dotQ_minor_max : ∀ (k i : Fin 12) (m : Bool),
    dot12 (rollProfile MINOR_PROFILE k : Fin 12 → ℚ)
        (rollProfile (cond m MINOR_PROFILE MAJOR_PROFILE) i) ≤
      dot12 (rollProfile MINOR_PROFILE k : Fin 12 → ℚ)
        (rollProfile MINOR_PROFILE k) := by
  with_unfolding_all decide

theorem dotQ_major_max : ∀ (k i : Fin 12) (m : Bool),
    dot12 (rollProfile MAJOR_PROFILE k : Fin 12 → ℚ)
        (rollProfile (cond m MINOR_PROFILE MAJOR_PROFILE) i) ≤
      dot12 (rollProfile MAJOR_PROFILE k : Fin 12 → ℚ)
        (rollProfile MINOR_PROFILE (k + 9)) := by
  with_unfolding_all decide

/-- C1 (counterexample): a one-frame chroma matrix whose time average is
exactly the un-rotated (k = 0) major profile.  The claim predicts the key
"C major"; `estimate_key` returns the relative minor "A minor" instead,
because the raw (un-centred) dot product of the major profile against the
minor profile rolled by 9 exceeds the major profile's self correlation. -/
theorem estimate_key_major_rotation_fails :
    estimate_key 1 (fun i _ => ((MAJOR_PROFILE i : ℚ) : ℝ)) = "A minor" ∧
    "A minor" ≠ "C major" := by
  have h : ∀ i, chromaMean 1 (fun i _ => ((MAJOR_PROFILE i : ℚ) : ℝ)) i =
      ((rollProfile MAJOR_PROFILE 0 i : ℚ) : ℝ) := by
    intro i
    simp [chromaMean, rollProfile]
  rw [estimate_key_eq_keyBest 1 _ _ h]
  constructor
  · with_unfolding_all decide
  · with_unfolding_all decide

/-- C1 (amended): for every k, a chroma matrix whose time average is the
minor profile rotated by k makes `estimate_key` return tonic k with minor
mode, and that candidate attains the maximum of the 24 correlation scores;
but a time average equal to the major profile rotated by k makes it return
the relative minor — tonic (k + 9) mod 12, minor mode — and it is that
relative-minor candidate that attains the maximum of the 24 scores. -/
theorem estimate_key_rotation (k : Fin 12) (T : ℕ)
    (chroma : Fin 12 → Fin T → ℝ) :
    ((∀ i, chromaMean T chroma i = ((rollProfile MINOR_PROFILE k i : ℚ) : ℝ)) →
      estimate_key T chroma = KEY_NAMES k ++ " minor" ∧
      ∀ (i : Fin 12) (m : Bool), keyScore T chroma i m ≤ keyScore T chroma k true) ∧
    ((∀ i, chromaMean T chroma i = ((rollProfile MAJOR_PROFILE k i : ℚ) : ℝ)) →
      estimate_key T chroma = KEY_NAMES (k + 9) ++ " minor" ∧
      ∀ (i : Fin 12) (m : Bool), keyScore T chroma i m ≤ keyScore T chroma (k + 9) true) := by
  constructor
  · intro h
    refine ⟨(estimate_key_eq_keyBest T chroma _ h).trans (keyBest_minor_rot k), ?_⟩
    intro i m
    have h1 := keyScore_eq T chroma _ h i m
    have h2 := keyScore_eq T chroma _ h k true
    rw [h1, h2, div_le_div_iff_of_pos_right (denom_pos _), Rat.cast_le]
    exact dotQ_minor_max k i m
  · intro h
    refine ⟨(estimate_key_eq_keyBest T chroma _ h).trans (keyBest_major_rot k), ?_⟩
    intro i m
    have h1 := keyScore_eq T chroma _ h i m
    have h2 := keyScore_eq T chroma _ h (k + 9) true
    rw [h1, h2, div_le_div_iff_of_pos_right (denom_pos _), Rat.cast_le]
    exact dotQ_major_max k i m

/-- C1 (witness): the amended theorem applied at k = 0 to a one-frame
chroma matrix equal to the un-rotated minor profile: the result is
"C minor". -/
theorem estimate_key_rotation_witness :
    (∀ i, chromaMean 1 (fun i _ => ((MINOR_PROFILE i : ℚ) : ℝ)) i =
        ((rollProfile MINOR_PROFILE 0 i : ℚ) : ℝ)) ∧
    estimate_key 1 (fun i _ => ((MINOR_PROFILE i : ℚ) : ℝ)) = "C minor" := by
  have h : ∀ i, chromaMean 1 (fun i _ => ((MINOR_PROFILE i : ℚ) : ℝ)) i =
      ((rollProfile MINOR_PROFILE 0 i : ℚ) : ℝ) := by
    intro i
    simp [chromaMean, rollProfile]
  refine ⟨h, ?_⟩
  have h2 := ((estimate_key_rotation 0 1 _).1 h).1
  exact h2.trans (by with_unfolding_all decide)

/-- C10: when the time-averaged chroma vector is all zeros, every one of the
24 correlation scores is 0, each candidate beats the initial negative
infinity only at the first iteration, and `estimate_key` returns the first
candidate "C major" — never the "Unknown" sentinel. -/
theorem estimate_key_zero (T : ℕ) (chroma : Fin 12 → Fin T → ℝ)
    (h : ∀ i, chromaMean T chroma i = 0) :
    estimate_key T chroma = "C major" ∧ estimate_key T chroma ≠ "Unknown" := by
  have h0 : ∀ i, chromaMean T chroma i = (((fun _ => 0 : Fin 12 → ℚ) i : ℚ) : ℝ) := by
    intro i
    rw [h i]
    norm_num
  rw [estimate_key_eq_keyBest T chroma _ h0]
  constructor
  · with_unfolding_all decide
  · with_unfolding_all decide

/-- C10 (witness): the all-zero one-frame chroma matrix averages to zero and
is assigned "C major". -/
theorem estimate_key_zero_witness :
    (∀ i, chromaMean 1 (fun _ _ => (0 : ℝ)) i = 0) ∧
    estimate_key 1 (fun _ _ => (0 : ℝ)) = "C major" := by
  have h : ∀ i, chromaMean 1 (fun _ _ => (0 : ℝ)) i = 0 := by
    intro i
    simp [chromaMean]
  exact ⟨h, (estimate_key_zero 1 _ h).1⟩

/-- The 12 major key labels in `KEY_NAMES` order. -/
def majorKeyLabels : List String :=
  ["C major", "C# major", "D major", "D# major", "E major", "F major",
   "F# major", "G major", "G# major", "A major", "A# major", "B major"]

/-- The 12 minor key labels in `KEY_NAMES` order. -/
def minorKeyLabels : List String :=
  ["C minor", "C# minor", "D minor", "D# minor", "E minor", "F minor",
   "F# minor", "G minor", "G# minor", "A minor", "A# minor", "B minor"]

/-- The 12 major-side (B) Camelot codes. -/
def camelotCodesB : List String :=
  ["1B", "2B", "3B", "4B", "5B", "6B", "7B", "8B", "9B", "10B", "11B", "12B"]

/-- The 12 minor-side (A) Camelot codes. -/
def camelotCodesA : List String :=
  ["1A", "2A", "3A", "4A", "5A", "6A", "7A", "8A", "9A", "10A", "11A", "12A"]

/-- C2: on the 24 valid key labels `key_to_camelot` is a bijection onto the
24 Camelot codes — the images of the major (resp. minor) labels are pairwise
distinct and exhaust the B (resp. A) side of the wheel — with the anchor
values B→1B, F#→2B, E→12B for major and G#→1A, D#→2A, C#→12A for minor. -/
theorem key_to_camelot_bijective :
    majorKeyLabels.map key_to_camelot =
      ["8B", "3B", "10B", "5B", "12B", "7B", "2B", "9B", "4B", "11B", "6B", "1B"] ∧
    minorKeyLabels.map key_to_camelot =
      ["5A", "12A", "7A", "2A", "9A", "4A", "11A", "6A", "1A", "8A", "3A", "10A"] ∧
    (majorKeyLabels.map key_to_camelot).Perm camelotCodesB ∧
    (minorKeyLabels.map key_to_camelot).Perm camelotCodesA ∧
    (majorKeyLabels.map key_to_camelot).Nodup ∧
    (minorKeyLabels.map key_to_camelot).Nodup ∧
    key_to_camelot "B major" = "1B" ∧ key_to_camelot "F# major" = "2B" ∧
    key_to_camelot "E major" = "12B" ∧ key_to_camelot "G# minor" = "1A" ∧
    key_to_camelot "D# minor" = "2A" ∧ key_to_camelot "C# minor" = "12A" := by
  with_unfolding_all decide

/-- A key label that splits at a space but whose mode part is neither
`"major"` nor `"minor"`. -/
def badMode (s : String) : Prop :=
  ∃ note mode, splitFirstSpace s.data = some (note, mode) ∧
    String.mk mode ≠ "major" ∧ String.mk mode ≠ "minor"

/-- A key label with a recognised mode but a tonic outside the 12 pitch
classes of `KEY_NAMES`. -/
def badNote (s : String) : Prop :=
  ∃ note mode, splitFirstSpace s.data = some (note, mode) ∧
    (String.mk mode = "major" ∨ String.mk mode = "minor") ∧
    ∀ j : Fin 12, String.mk note ≠ KEY_NAMES j

theorem lookup_eq_none_of_notkey (note : String) :
    ∀ d : List (String × String), (∀ p ∈ d, note ≠ p.1) → d.lookup note = none := by
  intro d
  induction d with
  | nil => intro _; rfl
  | cons p t ih =>
      intro h
      obtain ⟨k, v⟩ := p
      have h1 : (note == k) = false := by
        rw [beq_eq_false_iff_ne]
        exact h (k, v) (List.mem_cons_self (k, v) t)
      simp only [List.lookup, h1]
      exact ih fun q hq => h q (List.mem_cons_of_mem _ hq)

theorem dictGet_major_empty (note : String)
    (hn : ∀ j : Fin 12, note ≠ KEY_NAMES j) : dictGet CAM_MAJOR note = "" := by
  have hkeys : ∀ p ∈ CAM_MAJOR, ∃ j : Fin 12, p.1 = KEY_NAMES j := by decide
  have h : CAM_MAJOR.lookup note = none := by
    refine lookup_eq_none_of_notkey note CAM_MAJOR fun p hp => ?_
    obtain ⟨j, hj⟩ := hkeys p hp
    rw [hj]
    exact hn j
  rw [dictGet, h]
  rfl

theorem dictGet_minor_empty (note : String)
    (hn : ∀ j : Fin 12, note ≠ KEY_NAMES j) : dictGet CAM_MINOR note = "" := by
  have hkeys : ∀ p ∈ CAM_MINOR, ∃ j : Fin 12, p.1 = KEY_NAMES j := by decide
  have h : CAM_MINOR.lookup note = none := by
    refine lookup_eq_none_of_notkey note CAM_MINOR fun p hp => ?_
    obtain ⟨j, hj⟩ := hkeys p hp
    rw [hj]
    exact hn j
  rw [dictGet, h]
  rfl

theorem splitFirstSpace_of_no_space :
    ∀ l : List Char, ' ' ∉ l → splitFirstSpace l = none := by
  intro l
  induction l with
  | nil => intro _; rfl
  | cons c t ih =>
      intro h
      have hc : ¬ c = ' ' := fun hc => h (hc ▸ List.mem_cons_self c t)
      simp only [splitFirstSpace, if_neg hc, ih fun ht => h (List.mem_cons_of_mem c ht)]
      rfl

/-- C7: `key_to_camelot` is total and returns the empty string on every
unmappable input — the "unknown"/"Unknown" sentinel, any string without a
space, any mode other than "major"/"minor", and any tonic outside the 12
pitch classes. -/
theorem key_to_camelot_unmappable (s : String)
    (h : s = "Unknown" ∨ s = "unknown" ∨ ' ' ∉ s.data ∨ badMode s ∨ badNote s) :
    key_to_camelot s = "" := by
  rcases h with h | h | h | h | h
  · rw [h]
    with_unfolding_all decide
  · rw [h]
    with_unfolding_all decide
  · unfold key_to_camelot
    rw [splitFirstSpace_of_no_space s.data h]
  · obtain ⟨note, mode, hsplit, h1, h2⟩ := h
    unfold key_to_camelot
    rw [hsplit]
    show (if String.mk mode = "major" then dictGet CAM_MAJOR (String.mk note)
      else if String.mk mode = "minor" then dictGet CAM_MINOR (String.mk note)
      else "") = ""
    rw [if_neg h1, if_neg h2]
  · obtain ⟨note, mode, hsplit, hm, hn⟩ := h
    unfold key_to_camelot
    rw [hsplit]
    show (if String.mk mode = "major" then dictGet CAM_MAJOR (String.mk note)
      else if String.mk mode = "minor" then dictGet CAM_MINOR (String.mk note)
      else "") = ""
    rcases hm with hm | hm
    · rw [if_pos hm]
      exact dictGet_major_empty _ hn
    · have hmaj : String.mk mode ≠ "major" := by
        rw [hm]
        decide
      rw [if_neg hmaj, if_pos hm]
      exact dictGet_minor_empty _ hn

/-- C7 (witness): "H major" has a recognised mode but the tonic "H" is not a
pitch class, so the Camelot code is empty. -/
theorem key_to_camelot_unmappable_witness :
    badNote "H major" ∧ key_to_camelot "H major" = "" := by
  have hb : badNote "H major" := by
    refine ⟨['H'], "major".data, ?_, ?_, ?_⟩
    · with_unfolding_all decide
    · left
      with_unfolding_all decide
    · with_unfolding_all decide
  exact ⟨hb, key_to_camelot_unmappable "H major"
    (Or.inr (Or.inr (Or.inr (Or.inr hb))))⟩

/-- C5: in every non-error record assembled by the analysis pipeline the
Camelot code field is non-empty exactly when the key field is not the
"Unknown" sentinel (with exact arithmetic the key estimator always commits
to one of the 24 real labels, and each of those maps to a non-empty code). -/
theorem analyze_song_camelot_iff (path : String) (T : ℕ)
    (chroma : Fin 12 → Fin T → ℝ) (tempo_value energy brightness : ℚ) :
    (analyze_song path T chroma tempo_value energy brightness).camelot_key ≠ ""
      ↔ (analyze_song path T chroma tempo_value energy brightness).key ≠ "Unknown" := by
  have hmem := estimate_key_mem T chroma
  have hfacts : ∀ s ∈ validKeyLabels, key_to_camelot s ≠ "" ∧ s ≠ "Unknown" := by
    with_unfolding_all decide
  constructor
  · intro _
    simpa [analyze_song] using (hfacts _ hmem).2
  · intro _
    simpa [analyze_song] using (hfacts _ hmem).1

/-- C6: a per-track failure inside `analyze_folder` produces exactly one
record carrying the file's basename and the error message with all four
analytic fields empty, and the surrounding batch is unaffected: the records
before and after the failing track are exactly those of the other tracks,
and every input track yields exactly one output record. -/
theorem analyze_folder_error_isolation
    (analyze : String → Except String SongRow) (xs ys : List String)
    (p e : String) (h : analyze p = Except.error e) :
    analyze_folder analyze (xs ++ p :: ys) =
      analyze_folder analyze xs ++ errorRow p e :: analyze_folder analyze ys ∧
    (analyze_folder analyze (xs ++ p :: ys)).length = (xs ++ p :: ys).length ∧
    (errorRow p e).filename = basename p ∧
    (errorRow p e).error = some e ∧
    (errorRow p e).tempo_bpm = "" ∧
    (errorRow p e).camelot_key = "" ∧
    (errorRow p e).key = "" ∧
    (errorRow p e).mood = "" := by
  refine ⟨?_, ?_, rfl, rfl, rfl, rfl, rfl, rfl⟩
  · simp [analyze_folder, h]
  · simp [analyze_folder]

/-- C6 (witness): a two-track batch whose second track raises "boom". -/
theorem analyze_folder_error_isolation_witness :
    analyze_folder (fun _ => Except.error "boom") (["a.mp3"] ++ "songs/bad.mp3" :: []) =
      analyze_folder (fun _ => Except.error "boom") ["a.mp3"] ++
        errorRow "songs/bad.mp3" "boom" ::
          analyze_folder (fun _ => Except.error "boom") [] ∧
    (errorRow "songs/bad.mp3" "boom").filename = "bad.mp3" := by
  have h := analyze_folder_error_isolation (fun _ => Except.error "boom")
    ["a.mp3"] [] "songs/bad.mp3" "boom" rfl
  exact ⟨h.1, by with_unfolding_all decide⟩

/-- C8: the very first rule of `detect_mood` fires on any tempo strictly
above 145 and returns "Energetic" regardless of energy, brightness and
mode. -/
theorem detect_mood_high_tempo (energy brightness tempo : ℚ) (key : String)
    (h : tempo > 145) :
    detect_mood energy brightness tempo key = "Energetic" := by
  simp only [detect_mood]
  rw [if_pos h]

/-- C8 (witness): tempo 150, energy 0.1, brightness 2000, major mode. -/
theorem detect_mood_high_tempo_witness :
    (150 : ℚ) > 145 ∧ detect_mood (1/10) 2000 150 "major" = "Energetic" :=
  ⟨by norm_num, detect_mood_high_tempo (1/10) 2000 150 "major" (by norm_num)⟩

/-- C4 (counterexample): at tempo 130 — strictly greater than 125 — with
energy 0.05 the cascade falls through to the 110-125 band rules and returns
"Dark", an output that neither the tempo > 145 rule (always "Energetic")
nor the tempo > 125 rule (which fires only when energy > 0.12 and returns
"Energetic" or "Intense") can produce. -/
theorem detect_mood_band_leak :
    detect_mood (5/100) 500 130 "C major" = "Dark" ∧
    (125 : ℚ) < 130 ∧ ¬ ((5 : ℚ)/100 > 12/100) ∧
    "Dark" ≠ "Energetic" ∧ "Dark" ≠ "Intense" := by
  with_unfolding_all decide

/-- C4 (amended): the medium-high band rules decide the output whenever
tempo lies in [110, 125], but also whenever tempo lies in (125, 145] with
energy at most 0.12 (the tempo > 125 rule fires only when energy exceeds
0.12); above 145 the first rule answers "Energetic", and in (125, 145] with
energy above 0.12 the tempo > 125 rule answers. -/
theorem detect_mood_band_exact (energy brightness tempo : ℚ) (key : String) :
    (110 ≤ tempo ∧ tempo ≤ 125 →
      detect_mood energy brightness tempo key =
        bandRules energy (min (brightness / 3500) 1) (is_major_of key)) ∧
    (125 < tempo ∧ tempo ≤ 145 ∧ energy ≤ 12/100 →
      detect_mood energy brightness tempo key =
        bandRules energy (min (brightness / 3500) 1) (is_major_of key)) ∧
    (145 < tempo → detect_mood energy brightness tempo key = "Energetic") ∧
    (125 < tempo ∧ tempo ≤ 145 ∧ 12/100 < energy →
      detect_mood energy brightness tempo key =
        (if is_major_of key = true ∨ min (brightness / 3500) 1 > 5/10
         then "Energetic" else "Intense")) := by
  refine ⟨?_, ?_, ?_, ?_⟩
  · rintro ⟨h1, h2⟩
    simp only [detect_mood, bandRules]
    rw [if_neg (by linarith : ¬ tempo > 145),
      if_neg (by rintro ⟨hc, -⟩; linarith : ¬ (tempo > 125 ∧ energy > 12/100)),
      if_pos (by linarith : tempo ≥ 110)]
  · rintro ⟨h1, h2, h3⟩
    simp only [detect_mood, bandRules]
    rw [if_neg (by linarith : ¬ tempo > 145),
      if_neg (by rintro ⟨-, hc⟩; linarith : ¬ (tempo > 125 ∧ energy > 12/100)),
      if_pos (by linarith : tempo ≥ 110)]
  · intro h
    simp only [detect_mood]
    rw [if_pos h]
  · rintro ⟨h1, h2, h3⟩
    simp only [detect_mood]
    rw [if_neg (by linarith : ¬ tempo > 145),
      if_pos (⟨by linarith, by linarith⟩ : tempo > 125 ∧ energy > 12/100)]

/-- C4 (witness): the amended theorem at tempo 120 (inside the band) and at
tempo 130 with energy 0.05 (the fall-through case). -/
theorem detect_mood_band_exact_witness :
    (110 ≤ (120 : ℚ) ∧ (120 : ℚ) ≤ 125) ∧
    detect_mood (1/10) 600 120 "C major" =
      bandRules (1/10) (min ((600 : ℚ)/3500) 1) (is_major_of "C major") ∧
    detect_mood (5/100) 500 130 "C major" =
      bandRules (5/100) (min ((500 : ℚ)/3500) 1) (is_major_of "C major") :=
  ⟨⟨by norm_num, by norm_num⟩,
    (detect_mood_band_exact (1/10) 600 120 "C major").1 ⟨by norm_num, by norm_num⟩,
    (detect_mood_band_exact (5/100) 500 130 "C major").2.1
      ⟨by norm_num, by norm_num, by norm_num⟩⟩

theorem mem_insertSorted (r x : Recommendation) :
    ∀ l, r ∈ insertSorted x l ↔ r = x ∨ r ∈ l := by
  intro l
  induction l with
  | nil => simp [insertSorted]
  | cons y t ih =>
      simp only [insertSorted]
      split_ifs with h
      · simp only [List.mem_cons, ih]
        tauto
      · simp only [List.mem_cons]

theorem mem_sortByScore (r : Recommendation) :
    ∀ l, r ∈ sortByScore l ↔ r ∈ l := by
  intro l
  induction l with
  | nil => simp [sortByScore]
  | cons x t ih =>
      simp only [sortByScore, mem_insertSorted, ih, List.mem_cons]

/-- C3 (spec-modelled): every recommendation returned by `recommend` comes
from a candidate that passed the 12 BPM filter on the best-case tempo
distance (the minimum of the direct, half-time and double-time deltas
against the query tempo). -/
theorem recommend_tempo_filter (query : String)
    (catalog : List (String × SongFingerprint)) (qf : SongFingerprint)
    (hq : catalog.lookup query = some qf) (r : Recommendation)
    (hr : r ∈ recommend query catalog) :
    tempoDistance qf.tempo_bpm r.tempo_bpm ≤ 12 := by
  simp only [recommend, hq] at hr
  by_cases hu : usable qf = true
  · rw [if_pos hu] at hr
    have hr2 := List.mem_of_mem_take hr
    rw [mem_sortByScore] at hr2
    obtain ⟨c, hc, hfc⟩ := List.mem_filterMap.mp hr2
    by_cases h1 : c.1 = query ∨ usable c.2 = false
    · rw [if_pos h1] at hfc
      exact absurd hfc (by simp)
    · rw [if_neg h1] at hfc
      by_cases h2 : 12 < tempoDistance qf.tempo_bpm c.2.tempo_bpm
      · rw [if_pos h2] at hfc
        exact absurd hfc (by simp)
      · rw [if_neg h2] at hfc
        push_neg at h2
        rw [← Option.some.inj hfc]
        exact h2
  · rw [if_neg hu] at hr
    exact absurd hr (List.not_mem_nil r)

/-- The query fingerprint of the demonstration catalog (120 BPM, 8A). -/
def qFp : SongFingerprint := ⟨120, "8A", "A minor", "Energetic", none⟩

/-- The recommendation row produced for the 121 BPM candidate. -/
def nearRec : Recommendation :=
  ⟨"near.mp3", 121, "8A", "A minor", "Energetic", 1/5, 1, 0⟩

/-- C3 (witness): in the demonstration catalog the 121 BPM candidate is
recommended for the 120 BPM query (tempo distance 1 ≤ 12), while the
135 BPM candidate — best-case tempo distance 15 > 12 — never appears. -/
theorem recommend_tempo_filter_witness :
    demoCatalog.lookup "q.mp3" = some qFp ∧
    nearRec ∈ recommend "q.mp3" demoCatalog ∧
    tempoDistance qFp.tempo_bpm nearRec.tempo_bpm ≤ 12 ∧
    tempoDistance (120 : ℚ) 135 > 12 ∧
    (∀ r ∈ recommend "q.mp3" demoCatalog, r.filename ≠ "fast.mp3") := by
  have hq : demoCatalog.lookup "q.mp3" = some qFp := by
    with_unfolding_all decide
  have hr : nearRec ∈ recommend "q.mp3" demoCatalog := by
    with_unfolding_all decide
  refine ⟨hq, hr, recommend_tempo_filter "q.mp3" demoCatalog qFp hq nearRec hr, ?_, ?_⟩
  · with_unfolding_all decide
  · with_unfolding_all decide

/-- The unit mean-chroma vector (1, 0, ..., 0). -/
def e0 : Fin 12 → ℝ :=
  fun j => if j = 0 then 1 else 0

theorem sum_sq_e0 : (∑ j, e0 j ^ 2) = 1 := by
  rw [show (∑ j, e0 j ^ 2) = ∑ j, (if j = (0 : Fin 12) then (1 : ℝ) else 0) by
    simp [e0]]
  rw [Finset.sum_ite_eq' (Finset.univ : Finset (Fin 12)) 0 (fun _ => (1 : ℝ))]
  simp

theorem l2norm_e0 : l2norm e0 = 1 := by
  rw [l2norm, sum_sq_e0, Real.sqrt_one]

/-- C9 (counterexample): the unit vector has L2 norm 1 ≠ 0, yet the code
still adds the 1e-9 epsilon to the denominator, so the "normalised" vector
has L2 norm 1/(1 + 10⁻⁹), which is not 1: the epsilon is not reserved for
the zero-norm case. -/
theorem chroma_norm_not_unit :
    l2norm e0 = 1 ∧ l2norm (chroma_norm e0) ≠ 1 := by
  refine ⟨l2norm_e0, ?_⟩
  have hsum : (∑ j, chroma_norm e0 j ^ 2) = (1 / (1 + 1/10^9))^2 := by
    have : ∀ j, chroma_norm e0 j = e0 j / (1 + 1/10^9) := by
      intro j
      rw [chroma_norm, l2norm_e0]
    simp only [this, div_pow, ← Finset.sum_div, sum_sq_e0, one_pow]
  rw [l2norm, hsum, Real.sqrt_sq (by positivity)]
  intro hc
  rw [div_eq_one_iff_eq (by positivity)] at hc
  norm_num at hc

/-- C9 (amended): the 1e-9 epsilon is added to the denominator
unconditionally, so for every mean chroma vector with nonzero L2 norm n the
normalised vector has L2 norm n/(n + 1e-9) — strictly less than 1, not
exactly 1. -/
theorem chroma_norm_l2 (v : Fin 12 → ℝ) (h : 0 < l2norm v) :
    l2norm (chroma_norm v) = l2norm v / (l2norm v + 1/10^9) ∧
    l2norm (chroma_norm v) < 1 := by
  have hd : (0 : ℝ) < l2norm v + 1/10^9 := denom_pos v
  have hsq : (∑ j, v j ^ 2) = (l2norm v)^2 := by
    rw [l2norm, Real.sq_sqrt]
    exact Finset.sum_nonneg fun j _ => sq_nonneg (v j)
  have key : l2norm (chroma_norm v) = l2norm v / (l2norm v + 1/10^9) := by
    have hsum : (∑ j, chroma_norm v j ^ 2) = (l2norm v / (l2norm v + 1/10^9))^2 := by
      simp only [chroma_norm, div_pow, ← Finset.sum_div, hsq]
    rw [l2norm, hsum, Real.sqrt_sq (by positivity)]
  refine ⟨key, ?_⟩
  rw [key, div_lt_one hd]
  nlinarith [show (0 : ℝ) < 1/10^9 by norm_num]

/-- C9 (witness): the amended theorem applied to the unit vector. -/
theorem chroma_norm_l2_witness :
    0 < l2norm e0 ∧ l2norm (chroma_norm e0) = 1 / (1 + 1/10^9) ∧
    l2norm (chroma_norm e0) < 1 := by
  have h0 : 0 < l2norm e0 := by
    rw [l2norm_e0]
    norm_num
  have h := chroma_norm_l2 e0 h0
  refine ⟨h0, ?_, h.2⟩
  rw [h.1, l2norm_e0]

end MixBuddy
